import Mathlib

/-!
# mod_log_scribe: a verification development

Shallow embedding of `src/mod_log_scribe.c` (the `APR_HAS_THREADS` build, in
which every log target owns an `apr_reslist_t` connection pool).

Conventions of the embedding

* A C string is the list of its characters, without the terminating NUL.  A
  `char*` into a mutable buffer is an offset into a `List Char` that holds the
  buffer bytes, terminator included; `cstr` reads the string found there.
* `int` fields are `Int`.  `NULL` pointers are `none`.
* The libraries the module links against (APR, httpd, mod_log_config and the
  scribe client) are collaborators: they are gathered in `Env`, whose fields
  are functions of the history of calls made so far (`List Event`), so that a
  collaborator may answer differently at each call.  Every call the module
  makes to a collaborator is appended to the history.
* `name`, `strs`, `strl` are taken non-NULL and lengths non-negative, as
  mod_log_config passes them.
* What is printed on `stderr` is not part of the history.  The calls of
  `fprintf` with a constant format only print; the call `fprintf(stderr, str)`
  of `scribe_log_writer` uses the message as the format, so it is embedded
  with its precondition `printf_no_conversion`: when the message holds a
  conversion the call has undefined behaviour, which the embedding renders
  as a fault, the function not returning (`status = none`).
-/

namespace ModLogScribe

/-! ## C library -/

/-- The string terminator. -/
def NUL : Char := Char.ofNat 0

/-- The C string that starts at offset `p` of the buffer `buf`. -/
def cstr (buf : List Char) (p : Nat) : List Char :=
  (buf.drop p).takeWhile (fun c => c ≠ NUL)

/-- Storing one byte: `buf[i] = c`. -/
def store (buf : List Char) (i : Nat) (c : Char) : List Char :=
  buf.set i c

/-- Model of `apr_pstrdup`: a fresh buffer holding the string and its terminator. -/
def apr_pstrdup (s : List Char) : List Char :=
  s ++ [NUL]

/-- Scan used by `ap_strrchr`: offset of the last `c` in the C string `s`,
where `i` is the offset of the head of `s`. -/
def strrchr_from (c : Char) : List Char → Nat → Option Nat
  | [], _ => none
  | x :: xs, i =>
    if x = NUL then none
    else match strrchr_from c xs (i + 1) with
      | some j => some j
      | none => if x = c then some i else none

/-- Model of `ap_strrchr(buf, c)` for `c` other than NUL: the offset of the
last occurrence of `c` in the C string at the start of `buf`, or `none` (NULL). -/
def ap_strrchr (buf : List Char) (c : Char) : Option Nat :=
  strrchr_from c buf 0

/-- Model of `strstr(hay, needle)`: the offset of the first occurrence, or `none`. -/
def strstr : List Char → List Char → Option Nat
  | [], needle => if needle = [] then some 0 else none
  | h :: t, needle =>
    if needle.isPrefixOf (h :: t) then some 0
    else (strstr t needle).map (fun i => i + 1)

/-- Model of `strcmp`: the difference of the first two bytes that differ
(the usual implementation; the C standard fixes only its sign). -/
def strcmp : List Char → List Char → Int
  | [], [] => 0
  | [], b :: _ => - (b.toNat : Int)
  | a :: _, [] => (a.toNat : Int)
  | a :: as, b :: bs => if a = b then strcmp as bs else (a.toNat : Int) - (b.toNat : Int)

/-- The C `isspace` in the "C" locale. -/
def isspace (c : Char) : Bool :=
  c.toNat = 32 || (9 ≤ c.toNat && c.toNat ≤ 13)

/-- The C `isdigit`. -/
def isdigit (c : Char) : Bool :=
  48 ≤ c.toNat && c.toNat ≤ 57

/-- The value of the longest run of decimal digits that starts `s`, continuing
from the accumulator `acc`. -/
def digitsVal : List Char → Nat → Nat
  | [], acc => acc
  | c :: cs, acc => if isdigit c then digitsVal cs (acc * 10 + (c.toNat - 48)) else acc

/-- Model of `apr_atoi64(s)`, that is `strtoll(s, NULL, 10)`: leading white
space is skipped, an optional sign is read, then decimal digits; the result
saturates at the bounds of a 64-bit integer and is 0 when there is no digit. -/
def apr_atoi64 (s : List Char) : Int :=
  match s.dropWhile isspace with
  | '-' :: t => max (-(2 : Int) ^ 63) (-(digitsVal t 0 : Int))
  | '+' :: t => min ((2 : Int) ^ 63 - 1) (digitsVal t 0 : Int)
  | t => min ((2 : Int) ^ 63 - 1) (digitsVal t 0 : Int)

/-- A port text with no number at its start: it is empty, or its first
character is neither white space, nor a sign, nor a digit. -/
def no_leading_number : List Char → Bool
  | [] => true
  | c :: _ => !(isspace c || isdigit c || c = '+' || c = '-')

/-- Conversion of a 64-bit value to the 32-bit `int` it is assigned to. -/
def toInt32 (x : Int) : Int :=
  (x + 2 ^ 31) % 2 ^ 32 - 2 ^ 31

/-- The precondition of `fprintf(stream, fmt)` called without further
arguments: the format holds no conversion specification that takes an
argument, that is, every `%` is part of the pair `%%`.  Otherwise the call
has undefined behaviour (it reads arguments that were not passed). -/
def printf_no_conversion : List Char → Bool
  | [] => true
  | '%' :: '%' :: t => printf_no_conversion t
  | '%' :: _ => false
  | _ :: t => printf_no_conversion t

/-- Model of `memcpy(mem + dst, src, n)` on the memory `mem`. -/
def memcpy (mem : List Char) (dst : Nat) (src : List Char) (n : Nat) : List Char :=
  (List.range n).foldl (fun m k => store m (dst + k) (src.getD k NUL)) mem

/-! ## Status codes -/

/-- The httpd status `OK`. -/
def OK : Int := 0

/-- The httpd status `DECLINED`. -/
def DECLINED : Int := -1

/-- The APR status `APR_SUCCESS`. -/
def APR_SUCCESS : Int := 0

/-- The APR status `APR_TIMEUP` (`APR_OS_START_STATUS + 7`). -/
def APR_TIMEUP : Int := 70007

/-- The value of the C expression `!APR_SUCCESS`. -/
def NOT_APR_SUCCESS : Int := if APR_SUCCESS = 0 then 1 else 0

/-! ## Data model -/

/-- The connection handle `scribe_t` of `scribe_c.h`; the client and transport
pointers are left out. -/
structure scribe_t where
  host : List Char
  port : Int
deriving DecidableEq, Repr

/-- The per-server configuration `scribe_log_config`. -/
structure scribe_log_config where
  fallbackURI : Option (List Char)
  timeoutInterval : Int
  retryInterval : Int
  logLocally : Int
deriving DecidableEq, Repr

/-- A single log target, `scribe_log`.  The field `scribes` (the connection
pool) is the collaborator `Env.apr_reslist_acquire`; `host` and `category`
hold the strings their pointers designate. -/
structure scribe_log where
  uri : List Char
  host : List Char
  port : Int
  category : List Char
  connectTimeout : Int
  fallbackURI : Option (List Char)
  fallingback : Int
  retryTimeout : Int
  localonly : Int
  normal_handle : Option Nat
deriving DecidableEq, Repr

/-- Calls made to the collaborators, and stores made into the message buffer
(`offset` relative to the start of the buffer). -/
inductive Event where
  | reslist_create
  | normal_log_writer_init (name : List Char)
  | scribe_open (host : List Char) (port : Int)
  | reslist_acquire
  | reslist_release (s : scribe_t)
  | normal_log_writer (handle : Nat) (strs : List (List Char)) (strl : List Nat)
      (nelts : Nat) (len : Nat)
  | palloc (size : Nat)
  | mem_write (offset : Nat) (size : Nat)
  | scribe_write (s : scribe_t) (category : List Char) (buf : List Char)
deriving DecidableEq, Repr

/-- What `apr_reslist_acquire` does: hand out an idle connection, build a new
one with the constructor, or give up after the timeout. -/
inductive Acquire where
  | idle (s : scribe_t)
  | create
  | timeup
deriving DecidableEq, Repr

/-- The collaborators.  Each answer may depend on the history of calls. -/
structure Env where
  /-- Return code of `scribe_open(scribe, host, port)`; non-zero is a failure. -/
  scribe_open : List Event → List Char → Int → Int
  /-- Return code of `scribe_write(scribe, category, buf)`. -/
  scribe_write : List Event → scribe_t → List Char → List Char → Int
  /-- Status of `apr_reslist_create`. -/
  apr_reslist_create : List Event → Int
  /-- Behaviour of the pool at `apr_reslist_acquire`. -/
  apr_reslist_acquire : List Event → Acquire
  /-- The handle returned by mod_log_config at `normal_log_writer_init(p, s, name)`. -/
  normal_log_writer_init : List Event → List Char → Option Nat
  /-- The status returned by mod_log_config at `normal_log_writer(...)`. -/
  normal_log_writer : List Event → Nat → List (List Char) → List Nat → Nat → Nat → Int
  /-- Contents of the block returned by `apr_palloc(p, sizeof(scribe_log))`. -/
  palloc_log : List Event → scribe_log
  /-- Contents of the memory at the address returned by
  `apr_palloc(r->pool, size)`, the bytes that follow the block included. -/
  palloc_str : List Event → Nat → List Char

/-- The registry `scribe_hash`, keyed by target name. -/
abbrev Hash := List (List Char × scribe_log)

/-- Model of `apr_hash_get(scribe_hash, name, APR_HASH_KEY_STRING)`: the value
stored under the key equal to `name`, or `none` (NULL). -/
def apr_hash_get : Hash → List Char → Option scribe_log
  | [], _ => none
  | (k, v) :: t, name => if k = name then some v else apr_hash_get t name

/-- Model of `apr_hash_set(scribe_hash, name, APR_HASH_KEY_STRING, l)`: the
value under `name` is replaced, or a new entry is made. -/
def apr_hash_set : Hash → List Char → scribe_log → Hash
  | [], name, l => [(name, l)]
  | (k, v) :: t, name, l =>
    if k = name then (k, l) :: t else (k, v) :: apr_hash_set t name l

/-- The state of the module: the registry and the history of calls. -/
structure State where
  scribe_hash : Hash
  trace : List Event

/-! ## open_scribe_connection -/

/-- Result of `open_scribe_connection`: the status, `*resource`, the
descriptor as the call leaves it and the history. -/
structure OpenResult where
  status : Int
  resource : Option scribe_t
  l : scribe_log
  trace : List Event

/-- `open_scribe_connection(resource, param, p)` of `src/mod_log_scribe.c`. -/
def open_scribe_connection (env : Env) (l : scribe_log) (tr : List Event) : OpenResult :=
  let rc := env.scribe_open tr l.host l.port
  let scribe : scribe_t := ⟨l.host, l.port⟩
  let tr1 := tr ++ [Event.scribe_open l.host l.port]
  if rc ≠ 0 then
    if l.fallbackURI ≠ none ∧ l.fallingback = 0 then
      open_scribe_connection env { l with host := [], port := 0, fallingback := 1 } tr1
    else
      ⟨NOT_APR_SUCCESS, none, l, tr1⟩
  else
    ⟨APR_SUCCESS, some scribe, l, tr1⟩
termination_by (if l.fallingback = 0 then 1 else 0 : Nat)
decreasing_by simp_all

/-! ## scribe_log_writer_init -/

/-- The block `if (scribeWriter != 0) { ... }` of `scribe_log_writer_init`:
the port, host and category read from the copy `uri` of the name, starting
from the defaults already stored in `l`. -/
def parse_uri (l : scribe_log) (uri : List Char) : scribe_log :=
  let c := ap_strrchr uri ':'
  let pu : Int × List Char :=
    match c with
    | some i =>
      if i ≠ 6 then (toInt32 (apr_atoi64 (cstr uri (i + 1))), store uri i NUL)
      else (l.port, uri)
    | none => (1463, uri)
  let port := pu.1
  let uri := pu.2
  let c := ap_strrchr uri '@'
  let hu : Option Nat × List Char :=
    match c with
    | some i => (some (i + 1), store uri i NUL)
    | none => (none, uri)
  let host := hu.1
  let uri := hu.2
  let c := ap_strrchr uri ':'
  let cu : Option Nat × List Char :=
    match c with
    | some i => (some (i + 1), store uri i NUL)
    | none => (none, uri)
  let category := cu.1
  let uri := cu.2
  { l with
    port := port
    host := match host with
      | some p => cstr uri p
      | none => l.host
    category := match category with
      | some p => cstr uri p
      | none => l.category
    localonly := 0 }

/-- `scribe_log_writer_init(p, s, name)` of `src/mod_log_scribe.c`; `conf` is
the configuration of the server `s`.  Returns the handle (`none` is NULL) and
the new state. -/
def scribe_log_writer_init (env : Env) (conf : scribe_log_config) (st : State)
    (name : List Char) : Option scribe_log × State :=
  let scribeWriter : Int := if strstr name "scribe".toList = none then 0 else 1
  if scribeWriter = 0 ∧ conf.logLocally = 0 then (none, st)
  else
    match apr_hash_get st.scribe_hash name with
    | some l => (some l, st)
    | none =>
      let l := env.palloc_log st.trace
      let rv := env.apr_reslist_create st.trace
      let tr := st.trace ++ [Event.reslist_create]
      if rv ≠ APR_SUCCESS then (none, ⟨st.scribe_hash, tr⟩)
      else
        let l := { l with uri := name }
        let uri := apr_pstrdup name
        let l := { l with host := "defaulthost".toList, port := 1463,
                          category := "default".toList }
        let l := { l with connectTimeout := conf.timeoutInterval,
                          fallbackURI := conf.fallbackURI,
                          retryTimeout := conf.retryInterval,
                          fallingback := 0 }
        if scribeWriter ≠ 0 then
          let l := parse_uri l uri
          (some l, ⟨apr_hash_set st.scribe_hash name l, tr⟩)
        else
          let h := env.normal_log_writer_init tr name
          let l := { l with localonly := 1, normal_handle := h }
          (some l, ⟨apr_hash_set st.scribe_hash name l,
                    tr ++ [Event.normal_log_writer_init name]⟩)

/-! ## scribe_log_writer -/

/-- Model of `apr_reslist_acquire(l->scribes, &scribe)`: the pool hands out an
idle connection, or runs its constructor `open_scribe_connection` on the
target, or times out.  The result has the status, the connection, the
descriptor as the constructor leaves it and the history. -/
def apr_reslist_acquire (env : Env) (l : scribe_log) (tr : List Event) : OpenResult :=
  let tr1 := tr ++ [Event.reslist_acquire]
  match env.apr_reslist_acquire tr with
  | Acquire.idle s => ⟨APR_SUCCESS, some s, l, tr1⟩
  | Acquire.create => open_scribe_connection env l tr1
  | Acquire.timeup => ⟨APR_TIMEUP, none, l, tr1⟩

/-- The loop `for (i = 0, s = str; i < nelts; ++i)` of `scribe_log_writer`:
`k` iterations are left, `i` is the index and `s` the offset of the write
pointer in the memory `mem`. -/
def copy_fragments (strs : List (List Char)) (strl : List Nat) :
    Nat → Nat → Nat → List Char → List Event → List Char × List Event
  | 0, _, _, mem, tr => (mem, tr)
  | k + 1, i, s, mem, tr =>
    let n := strl.getD i 0
    copy_fragments strs strl k (i + 1) (s + n) (memcpy mem s (strs.getD i []) n)
      (tr ++ [Event.mem_write s n])

/-- The block of `scribe_log_writer` that builds the message: allocation of
`len + 1` bytes, the copy loop and the store `str[len+1] = 0`.  Returns the
memory at `str` and the history. -/
def build_message (env : Env) (tr : List Event) (strs : List (List Char)) (strl : List Nat)
    (nelts : Nat) (len : Nat) : List Char × List Event :=
  let str := env.palloc_str tr (len + 1)
  let tr := tr ++ [Event.palloc (len + 1)]
  let r := copy_fragments strs strl nelts 0 0 str tr
  (store r.1 (len + 1) NUL, r.2 ++ [Event.mem_write (len + 1) 1])

/-- Result of `scribe_log_writer`: the status returned, or `none` when the
call does not return because the process faults; the descriptor as the call
leaves it and the history up to the return or the fault. -/
structure WriteResult where
  status : Option Int
  l : scribe_log
  trace : List Event

/-- `scribe_log_writer(r, handle, strs, strl, nelts, len)` of
`src/mod_log_scribe.c`, on the descriptor `l` that `handle` points to.  The
test on `printf_no_conversion` is the call `fprintf(stderr, str)`, made
after the message is built and before `scribe_write`. -/
def scribe_log_writer (env : Env) (l : scribe_log) (tr : List Event)
    (strs : List (List Char)) (strl : List Nat) (nelts : Nat) (len : Nat) : WriteResult :=
  if l.localonly ≠ 0 ∧ l.normal_handle ≠ none then
    let h := l.normal_handle.getD 0
    let result := env.normal_log_writer tr h strs strl nelts len
    ⟨some result, l, tr ++ [Event.normal_log_writer h strs strl nelts len]⟩
  else
    let a := apr_reslist_acquire env l tr
    let scribe := if a.status ≠ APR_SUCCESS then none else a.resource
    match scribe with
    | none => ⟨some DECLINED, a.l, a.trace⟩
    | some sc =>
      let m := build_message env a.trace strs strl nelts len
      let str := cstr m.1 0
      if printf_no_conversion str = false then
        ⟨none, a.l, m.2⟩
      else
        let _rv := env.scribe_write m.2 sc a.l.category str
        let tr2 := m.2 ++ [Event.scribe_write sc a.l.category str]
        ⟨some OK, a.l, tr2 ++ [Event.reslist_release sc]⟩

/-! ## Configuration -/

/-- `make_log_scribe_config(p, s)` of `src/mod_log_scribe.c`. -/
def make_log_scribe_config : scribe_log_config :=
  { fallbackURI := none, logLocally := 1, timeoutInterval := 2000, retryInterval := 5000 }

/-- `logscribe_loglocally(cmd, dcfg, arg)` of `src/mod_log_scribe.c`, the
handler of the directive `ScribeLogLocally`; returns the configuration as
the call leaves it. -/
def logscribe_loglocally (conf : scribe_log_config) (arg : Option (List Char)) :
    scribe_log_config :=
  { conf with
    logLocally :=
      match arg with
      | some a => if strcmp a "Off".toList = 1 then 0 else 1
      | none => 1 }

/-! ## Operations on a target over the life of the process -/

/-- In-place update of the descriptor registered under `name` (a store
through the pointer that the registry holds). -/
def mutate : Hash → List Char → scribe_log → Hash
  | [], _, _ => []
  | (k, v) :: t, name, l =>
    if k = name then (k, l) :: t else (k, v) :: mutate t name l

/-- The operations that reach a target: registration of a name, connection
creation by the pool and a write. -/
inductive Op where
  | init (conf : scribe_log_config) (name : List Char)
  | open_conn (name : List Char)
  | write (name : List Char) (strs : List (List Char)) (strl : List Nat) (nelts : Nat)
      (len : Nat)

/-- One operation on the state.  A write that faults ends the process; the
state it leaves is kept, so that a run covers every execution up to a fault
and whatever could follow it. -/
def step (env : Env) (st : State) : Op → State
  | Op.init conf name => (scribe_log_writer_init env conf st name).2
  | Op.open_conn name =>
    match apr_hash_get st.scribe_hash name with
    | none => st
    | some l =>
      let r := open_scribe_connection env l st.trace
      ⟨mutate st.scribe_hash name r.l, r.trace⟩
  | Op.write name strs strl nelts len =>
    match apr_hash_get st.scribe_hash name with
    | none => st
    | some l =>
      let r := scribe_log_writer env l st.trace strs strl nelts len
      ⟨mutate st.scribe_hash name r.l, r.trace⟩

/-- A sequence of operations, from left to right. -/
def run (env : Env) (st : State) (ops : List Op) : State :=
  ops.foldl (step env) st

/-! ## Sample inputs -/

/-- Collaborators that always succeed; the pool builds a connection at each
acquire, and fresh memory is filled with the letter X. -/
def sample_env : Env where
  scribe_open := fun _ _ _ => 0
  scribe_write := fun _ _ _ _ => 0
  apr_reslist_create := fun _ => 0
  apr_reslist_acquire := fun _ => Acquire.create
  normal_log_writer_init := fun _ _ => some 7
  normal_log_writer := fun _ _ _ _ _ _ => 0
  palloc_log := fun _ => ⟨[], [], 0, [], 0, none, 0, 0, 0, none⟩
  palloc_str := fun _ n => List.replicate (n + 4) 'X'

/-- As `sample_env`, with every `scribe_open` failing. -/
def failing_open_env : Env :=
  { sample_env with scribe_open := fun _ _ _ => 1 }

/-- As `sample_env`, with the pool handing out an idle connection and every
`scribe_write` failing. -/
def failing_write_env : Env :=
  { sample_env with
    apr_reslist_acquire := fun _ => Acquire.idle ⟨"myhost".toList, 1463⟩
    scribe_write := fun _ _ _ _ => 1 }

/-- As `sample_env`, with mod_log_config returning a NULL handle at init. -/
def null_handle_env : Env :=
  { sample_env with normal_log_writer_init := fun _ _ => none }

/-- The state before any target is registered. -/
def initial_state : State := ⟨[], []⟩

/-- A remote descriptor with a fallback URI configured. -/
def sample_target : scribe_log :=
  { uri := "scribe:events@primary:1463".toList, host := "primary".toList, port := 1463,
    category := "events".toList, connectTimeout := 2000,
    fallbackURI := some "scribe:events@backup:1463".toList, fallingback := 0,
    retryTimeout := 5000, localonly := 0, normal_handle := none }

/-- A local-only descriptor. -/
def local_target (h : Option Nat) : scribe_log :=
  { uri := "logs/access_log".toList, host := "defaulthost".toList, port := 1463,
    category := "default".toList, connectTimeout := 2000, fallbackURI := none,
    fallingback := 0, retryTimeout := 5000, localonly := 1, normal_handle := h }

/-- As `sample_env`, with `scribe_open` failing on the host "primary" only. -/
def primary_down_env : Env :=
  { sample_env with scribe_open := fun _ h _ => if h = "primary".toList then 1 else 0 }

/-- A record of one fragment, the letter a. -/
def sample_strs : List (List Char) := ["a".toList]

/-- A record of one fragment that holds a printf conversion. -/
def conversion_strs : List (List Char) := ["%s".toList]

/-- The descriptor `sample_target` without a fallback URI. -/
def no_fallback_target : scribe_log :=
  { sample_target with fallbackURI := none }

/-- A state in which the target "scribe:events@primary:1463" is registered
and has fallen back. -/
def fallen_state : State :=
  ⟨[("scribe:events@primary:1463".toList,
      { sample_target with host := [], port := 0, fallingback := 1 })], []⟩

/-- A re-registration of the name, a connection creation and a write. -/
def sample_ops : List Op :=
  [Op.init make_log_scribe_config "scribe:events@primary:1463".toList,
   Op.open_conn "scribe:events@primary:1463".toList,
   Op.write "scribe:events@primary:1463".toList sample_strs [1] 1 1]

/-! ## open_scribe_connection: the three paths -/

lemma open_success (env : Env) (l : scribe_log) (tr : List Event)
    (h : env.scribe_open tr l.host l.port = 0) :
    open_scribe_connection env l tr
      = ⟨APR_SUCCESS, some ⟨l.host, l.port⟩, l, tr ++ [Event.scribe_open l.host l.port]⟩ := by
  rw [open_scribe_connection]
  simp [h]

lemma open_failure_terminal (env : Env) (l : scribe_log) (tr : List Event)
    (h : env.scribe_open tr l.host l.port ≠ 0)
    (hf : l.fallbackURI = none ∨ l.fallingback ≠ 0) :
    open_scribe_connection env l tr
      = ⟨NOT_APR_SUCCESS, none, l, tr ++ [Event.scribe_open l.host l.port]⟩ := by
  rw [open_scribe_connection]
  have hc : ¬ (l.fallbackURI ≠ none ∧ l.fallingback = 0) := by
    rintro ⟨h1, h2⟩
    rcases hf with hf | hf
    · exact h1 hf
    · exact hf h2
  simp only [h, hc, ne_eq, not_false_eq_true, if_true, if_false]

lemma open_failure_fallback (env : Env) (l : scribe_log) (tr : List Event)
    (h : env.scribe_open tr l.host l.port ≠ 0)
    (h1 : l.fallbackURI ≠ none) (h2 : l.fallingback = 0) :
    open_scribe_connection env l tr
      = open_scribe_connection env { l with host := [], port := 0, fallingback := 1 }
          (tr ++ [Event.scribe_open l.host l.port]) := by
  rw [open_scribe_connection]
  have hc : l.fallbackURI ≠ none ∧ l.fallingback = 0 := ⟨h1, h2⟩
  simp only [h, hc, ne_eq, not_false_eq_true, if_true, and_self]

/-- After a fallback the retry is one more attempt, made against the host ""
and the port 0, whatever the fallback URI is. -/
lemma open_fallback_trace (env : Env) (l : scribe_log) (tr : List Event)
    (h : env.scribe_open tr l.host l.port ≠ 0)
    (h1 : l.fallbackURI ≠ none) (h2 : l.fallingback = 0) :
    (open_scribe_connection env l tr).trace
      = tr ++ [Event.scribe_open l.host l.port, Event.scribe_open [] 0] := by
  rw [open_failure_fallback env l tr h h1 h2]
  by_cases h3 : env.scribe_open (tr ++ [Event.scribe_open l.host l.port]) [] 0 = 0
  · rw [open_success _ _ _ h3]
    simp
  · rw [open_failure_terminal _ _ _ h3 (Or.inr (by simp))]
    simp

/-- A call that finds `fallingback` non-zero leaves the descriptor as it is. -/
lemma open_keeps_descriptor (env : Env) (l : scribe_log) (tr : List Event)
    (h : l.fallingback ≠ 0) : (open_scribe_connection env l tr).l = l := by
  by_cases h3 : env.scribe_open tr l.host l.port = 0
  · rw [open_success _ _ _ h3]
  · rw [open_failure_terminal _ _ _ h3 (Or.inr h)]

/-- Whatever happens, `fallingback` is left at its old value or at 1. -/
lemma open_fallingback (env : Env) (l : scribe_log) (tr : List Event) :
    (open_scribe_connection env l tr).l.fallingback = l.fallingback
      ∨ (open_scribe_connection env l tr).l.fallingback = 1 := by
  by_cases h3 : env.scribe_open tr l.host l.port = 0
  · rw [open_success _ _ _ h3]
    exact Or.inl rfl
  · by_cases hf : l.fallbackURI = none ∨ l.fallingback ≠ 0
    · rw [open_failure_terminal _ _ _ h3 hf]
      exact Or.inl rfl
    · have h1 : l.fallbackURI ≠ none := fun e => hf (Or.inl e)
      have h2 : l.fallingback = 0 := by
        by_contra e
        exact hf (Or.inr e)
      rw [open_failure_fallback _ _ _ h3 h1 h2, open_keeps_descriptor _ _ _ (by simp)]
      exact Or.inr rfl

/-! ## Connection creation and fallback -/

/-- C6: one call of `open_scribe_connection` makes one open attempt, or two;
it makes the second only when the first failed, a fallback URI is set and
`fallingback` was 0.  When the first attempt fails and there is no fallback
URI, or `fallingback` is not 0, the call makes exactly that one attempt,
returns a status other than success with a NULL resource and leaves the
descriptor (host, port and `fallingback` included) unchanged. -/
theorem open_scribe_connection_attempts (env : Env) (l : scribe_log) (tr : List Event) :
    let r := open_scribe_connection env l tr
    let first := Event.scribe_open l.host l.port
    (r.trace = tr ++ [first] ∨
      (r.trace = tr ++ [first, Event.scribe_open [] 0] ∧
        env.scribe_open tr l.host l.port ≠ 0 ∧ l.fallbackURI ≠ none ∧ l.fallingback = 0)) ∧
    (env.scribe_open tr l.host l.port ≠ 0 → (l.fallbackURI = none ∨ l.fallingback ≠ 0) →
      r.trace = tr ++ [first] ∧ r.status ≠ APR_SUCCESS ∧ r.resource = none ∧ r.l = l) := by
  intro r first
  constructor
  · by_cases h3 : env.scribe_open tr l.host l.port = 0
    · left
      show (open_scribe_connection env l tr).trace = _
      rw [open_success _ _ _ h3]
    · by_cases hf : l.fallbackURI = none ∨ l.fallingback ≠ 0
      · left
        show (open_scribe_connection env l tr).trace = _
        rw [open_failure_terminal _ _ _ h3 hf]
      · have h1 : l.fallbackURI ≠ none := fun e => hf (Or.inl e)
        have h2 : l.fallingback = 0 := by
          by_contra e
          exact hf (Or.inr e)
        right
        exact ⟨open_fallback_trace env l tr h3 h1 h2, h3, h1, h2⟩
  · intro h3 hf
    show (open_scribe_connection env l tr).trace = _ ∧
      (open_scribe_connection env l tr).status ≠ APR_SUCCESS ∧
      (open_scribe_connection env l tr).resource = none ∧
      (open_scribe_connection env l tr).l = l
    rw [open_failure_terminal _ _ _ h3 hf]
    exact ⟨rfl, (by decide : NOT_APR_SUCCESS ≠ APR_SUCCESS), rfl, rfl⟩

/-- C6, on a target without fallback URI whose open fails: one attempt, the
status 1, a NULL resource and the descriptor unchanged. -/
theorem open_scribe_connection_attempts_witness :
    (open_scribe_connection failing_open_env no_fallback_target []).trace
        = [] ++ [Event.scribe_open "primary".toList 1463] ∧
      (open_scribe_connection failing_open_env no_fallback_target []).status ≠ APR_SUCCESS ∧
      (open_scribe_connection failing_open_env no_fallback_target []).resource = none ∧
      (open_scribe_connection failing_open_env no_fallback_target []).l = no_fallback_target :=
  (open_scribe_connection_attempts failing_open_env no_fallback_target []).2
    (by decide) (Or.inl rfl)

/-- C4: with the fallback URI "scribe:events@backup:1463" and the primary
endpoint down, the code makes its second attempt against the host "" and
the port 0 and leaves these in the descriptor: the fallback URI is not
parsed, and no attempt is made against "backup", port 1463. -/
theorem open_scribe_connection_fallback_not_parsed :
    sample_target.fallbackURI = some "scribe:events@backup:1463".toList ∧
    sample_target.fallingback = 0 ∧
    (open_scribe_connection primary_down_env sample_target []).trace
      = [Event.scribe_open "primary".toList 1463, Event.scribe_open [] 0] ∧
    Event.scribe_open "backup".toList 1463
      ∉ (open_scribe_connection primary_down_env sample_target []).trace ∧
    (open_scribe_connection primary_down_env sample_target []).l.host = [] ∧
    (open_scribe_connection primary_down_env sample_target []).l.port = 0 ∧
    (open_scribe_connection primary_down_env sample_target []).resource = some ⟨[], 0⟩ := by
  have h : primary_down_env.scribe_open [] sample_target.host sample_target.port ≠ 0 := by
    decide
  rw [open_failure_fallback primary_down_env sample_target [] h (by decide) (by decide),
    open_success _ _ _ (by decide)]
  decide

/-! ## The write path -/

/-- The three outcomes of `scribe_log_writer` on a target that is not
delegated to mod_log_config. -/
lemma writer_remote_cases (env : Env) (l : scribe_log) (tr : List Event)
    (strs : List (List Char)) (strl : List Nat) (nelts len : Nat)
    (hc : ¬ (l.localonly ≠ 0 ∧ l.normal_handle ≠ none)) :
    ((apr_reslist_acquire env l tr).status ≠ APR_SUCCESS
        ∨ (apr_reslist_acquire env l tr).resource = none →
      scribe_log_writer env l tr strs strl nelts len
        = ⟨some DECLINED, (apr_reslist_acquire env l tr).l,
            (apr_reslist_acquire env l tr).trace⟩) ∧
    (∀ sc, (apr_reslist_acquire env l tr).status = APR_SUCCESS →
      (apr_reslist_acquire env l tr).resource = some sc →
      printf_no_conversion
        (cstr (build_message env (apr_reslist_acquire env l tr).trace strs strl nelts len).1 0)
        = false →
      scribe_log_writer env l tr strs strl nelts len
        = ⟨none, (apr_reslist_acquire env l tr).l,
            (build_message env (apr_reslist_acquire env l tr).trace strs strl nelts len).2⟩) ∧
    (∀ sc, (apr_reslist_acquire env l tr).status = APR_SUCCESS →
      (apr_reslist_acquire env l tr).resource = some sc →
      printf_no_conversion
        (cstr (build_message env (apr_reslist_acquire env l tr).trace strs strl nelts len).1 0)
        = true →
      scribe_log_writer env l tr strs strl nelts len
        = ⟨some OK, (apr_reslist_acquire env l tr).l,
            (build_message env (apr_reslist_acquire env l tr).trace strs strl nelts len).2
              ++ [Event.scribe_write sc (apr_reslist_acquire env l tr).l.category
                    (cstr (build_message env (apr_reslist_acquire env l tr).trace
                      strs strl nelts len).1 0)]
              ++ [Event.reslist_release sc]⟩) := by
  refine ⟨?_, ?_, ?_⟩
  · intro hn
    have hsc : (if (apr_reslist_acquire env l tr).status ≠ APR_SUCCESS then none
        else (apr_reslist_acquire env l tr).resource) = none := by
      rcases hn with hn | hn
      · simp [hn]
      · simp [hn]
    unfold scribe_log_writer
    rw [if_neg hc]
    simp only [hsc]
  · intro sc hs hr hp
    have hsc : (if (apr_reslist_acquire env l tr).status ≠ APR_SUCCESS then none
        else (apr_reslist_acquire env l tr).resource) = some sc := by
      simp [hs, hr]
    unfold scribe_log_writer
    rw [if_neg hc]
    simp only [hsc, hp, if_true]
  · intro sc hs hr hp
    have hsc : (if (apr_reslist_acquire env l tr).status ≠ APR_SUCCESS then none
        else (apr_reslist_acquire env l tr).resource) = some sc := by
      simp [hs, hr]
    unfold scribe_log_writer
    rw [if_neg hc]
    simp only [hsc, hp, Bool.true_eq_false, if_false]

/-- When the message holds a printf conversion, `fprintf(stderr, str)` has
undefined behaviour: the call does not return, and neither the dispatch nor
the release is reached. -/
lemma writer_format_fault :
    (scribe_log_writer failing_write_env sample_target [] conversion_strs [2] 1 2).status = none ∧
    (scribe_log_writer failing_write_env sample_target [] conversion_strs [2] 1 2).trace
      = [Event.reslist_acquire, Event.palloc 3, Event.mem_write 0 2, Event.mem_write 3 1] := by
  decide

/-- C7, as the code has it: on a target that is not delegated to
mod_log_config, for every record, when the pool yields a connection and the
message built holds no printf conversion (so that `fprintf(stderr, str)`
returns), `scribe_log_writer` makes one `scribe_write` of the message under
the category of the target, releases the connection and returns OK,
whatever that `scribe_write` reports.  It returns DECLINED exactly when no
connection is acquired, and then dispatches nothing. -/
theorem scribe_log_writer_status (env : Env) (l : scribe_log) (tr : List Event)
    (strs : List (List Char)) (strl : List Nat) (nelts len : Nat)
    (h : l.localonly = 0 ∨ l.normal_handle = none) :
    let a := apr_reslist_acquire env l tr
    let r := scribe_log_writer env l tr strs strl nelts len
    let m := build_message env a.trace strs strl nelts len
    (∀ sc, a.status = APR_SUCCESS → a.resource = some sc →
      printf_no_conversion (cstr m.1 0) = true →
      r.status = some OK ∧
      r.trace = m.2 ++ [Event.scribe_write sc a.l.category (cstr m.1 0),
                        Event.reslist_release sc]) ∧
    (a.status ≠ APR_SUCCESS ∨ a.resource = none →
      r.status = some DECLINED ∧ r.trace = a.trace) ∧
    (r.status = some DECLINED → a.status ≠ APR_SUCCESS ∨ a.resource = none) := by
  intro a r m
  have hc : ¬ (l.localonly ≠ 0 ∧ l.normal_handle ≠ none) := by
    rintro ⟨h1, h2⟩
    rcases h with h | h
    · exact h1 h
    · exact h2 h
  obtain ⟨c1, c2, c3⟩ := writer_remote_cases env l tr strs strl nelts len hc
  refine ⟨?_, ?_, ?_⟩
  · intro sc hs hr hp
    show (scribe_log_writer env l tr strs strl nelts len).status = some OK ∧
      (scribe_log_writer env l tr strs strl nelts len).trace = _
    rw [c3 sc hs hr hp]
    simp [a, m]
  · intro hn
    show (scribe_log_writer env l tr strs strl nelts len).status = some DECLINED ∧
      (scribe_log_writer env l tr strs strl nelts len).trace = _
    rw [c1 hn]
    exact ⟨rfl, rfl⟩
  · intro hd
    have hd' : (scribe_log_writer env l tr strs strl nelts len).status = some DECLINED := hd
    by_contra hn
    have hs : (apr_reslist_acquire env l tr).status = APR_SUCCESS := by
      by_contra e
      exact hn (Or.inl e)
    obtain ⟨sc, hr⟩ : ∃ sc, (apr_reslist_acquire env l tr).resource = some sc := by
      cases hres : (apr_reslist_acquire env l tr).resource with
      | none => exact absurd (Or.inr hres) hn
      | some sc => exact ⟨sc, rfl⟩
    cases hp : printf_no_conversion
        (cstr (build_message env (apr_reslist_acquire env l tr).trace strs strl nelts len).1 0)
      with
    | false =>
      rw [c2 sc hs hr hp] at hd'
      exact absurd hd' (by simp)
    | true =>
      rw [c3 sc hs hr hp] at hd'
      have hne : some OK ≠ some DECLINED := by decide
      exact hne hd'

/-- C7, on a remote target whose pool hands out an idle connection and the
record "a": OK. -/
theorem scribe_log_writer_status_witness :
    (scribe_log_writer failing_write_env sample_target [] sample_strs [1] 1 1).status
      = some OK :=
  ((scribe_log_writer_status failing_write_env sample_target [] sample_strs [1] 1 1
      (Or.inl rfl)).1 ⟨"myhost".toList, 1463⟩ (by decide) (by decide) (by decide)).1

/-- C7 fails as stated: a connection is acquired, the `scribe_write` of the
message returns 1 (a failure), and `scribe_log_writer` returns OK, not
DECLINED. -/
theorem scribe_log_writer_dispatch_failure_returns_ok :
    (scribe_log_writer failing_write_env sample_target [] sample_strs [1] 1 1).trace
      = [Event.reslist_acquire, Event.palloc 2, Event.mem_write 0 1, Event.mem_write 2 1,
         Event.scribe_write ⟨"myhost".toList, 1463⟩ "events".toList "aX".toList,
         Event.reslist_release ⟨"myhost".toList, 1463⟩] ∧
    failing_write_env.scribe_write
      [Event.reslist_acquire, Event.palloc 2, Event.mem_write 0 1, Event.mem_write 2 1]
      ⟨"myhost".toList, 1463⟩ "events".toList "aX".toList = 1 ∧
    (scribe_log_writer failing_write_env sample_target [] sample_strs [1] 1 1).status
      = some OK ∧
    (scribe_log_writer failing_write_env sample_target [] sample_strs [1] 1 1).status
      ≠ some DECLINED := by
  decide

/-- C8, as the code has it: for a descriptor marked local-only whose delegate
handle is not NULL, `scribe_log_writer` makes one call, the call of the
local-logging collaborator with the handle and the arguments it received,
returns the status of that call and leaves the descriptor unchanged: no
pool acquire, no connection open, no `scribe_write`. -/
theorem scribe_log_writer_local_delegates (env : Env) (l : scribe_log) (tr : List Event)
    (strs : List (List Char)) (strl : List Nat) (nelts len : Nat) (hd : Nat)
    (h1 : l.localonly ≠ 0) (h2 : l.normal_handle = some hd) :
    let r := scribe_log_writer env l tr strs strl nelts len
    r.status = some (env.normal_log_writer tr hd strs strl nelts len) ∧
    r.trace = tr ++ [Event.normal_log_writer hd strs strl nelts len] ∧
    r.l = l := by
  intro r
  have hc : l.localonly ≠ 0 ∧ l.normal_handle ≠ none := ⟨h1, by simp [h2]⟩
  show (scribe_log_writer env l tr strs strl nelts len).status = _ ∧
    (scribe_log_writer env l tr strs strl nelts len).trace = _ ∧
    (scribe_log_writer env l tr strs strl nelts len).l = l
  unfold scribe_log_writer
  rw [if_pos hc]
  simp [h2]

/-- C8, on a local-only descriptor with the handle 7. -/
theorem scribe_log_writer_local_delegates_witness :
    (scribe_log_writer sample_env (local_target (some 7)) [] sample_strs [1] 1 1).status
        = some (sample_env.normal_log_writer [] 7 sample_strs [1] 1 1) ∧
      (scribe_log_writer sample_env (local_target (some 7)) [] sample_strs [1] 1 1).trace
        = [] ++ [Event.normal_log_writer 7 sample_strs [1] 1 1] ∧
      (scribe_log_writer sample_env (local_target (some 7)) [] sample_strs [1] 1 1).l
        = local_target (some 7) :=
  scribe_log_writer_local_delegates sample_env (local_target (some 7)) [] sample_strs [1] 1 1 7
    (by decide) rfl

/-- C8 fails as stated: mod_log_config returns a NULL handle at init, the
descriptor is marked local-only, and `scribe_log_writer` does not call the
local-logging collaborator: it acquires from the pool, opens a connection
to the default host and dispatches with `scribe_write`. -/
theorem scribe_log_writer_null_handle_uses_pool :
    (scribe_log_writer_init null_handle_env make_log_scribe_config initial_state
        "logs/access_log".toList).1 = some (local_target none) ∧
    (local_target none).localonly ≠ 0 ∧
    (scribe_log_writer null_handle_env (local_target none) [] sample_strs [1] 1 1).trace
      = [Event.reslist_acquire, Event.scribe_open "defaulthost".toList 1463,
         Event.palloc 2, Event.mem_write 0 1, Event.mem_write 2 1,
         Event.scribe_write ⟨"defaulthost".toList, 1463⟩ "default".toList "aX".toList,
         Event.reslist_release ⟨"defaulthost".toList, 1463⟩] := by
  refine ⟨by decide, by decide, ?_⟩
  have e : apr_reslist_acquire null_handle_env (local_target none) []
      = ⟨APR_SUCCESS, some ⟨"defaulthost".toList, 1463⟩, local_target none,
          [Event.reslist_acquire, Event.scribe_open "defaulthost".toList 1463]⟩ := by
    unfold apr_reslist_acquire
    show open_scribe_connection null_handle_env (local_target none) [Event.reslist_acquire] = _
    rw [open_success _ _ _ (by decide)]
    rfl
  unfold scribe_log_writer
  rw [if_neg (by decide), e]
  decide

/-- C9: on the record made of the one fragment "a" (`len` = 1) the buffer
has 2 bytes; the code copies the fragment to offset 0 and stores the
terminator at offset 2, outside the buffer.  Offset 1, where the terminator
belongs, keeps what the allocator left there (here the letter X), and the
message dispatched is "aX", not "a". -/
theorem build_message_terminator_off_by_one :
    sample_env.palloc_str [] 2 = "XXXXXX".toList ∧
    (build_message sample_env [] sample_strs [1] 1 1).1 = ['a', 'X', NUL, 'X', 'X', 'X'] ∧
    (build_message sample_env [] sample_strs [1] 1 1).2
      = [Event.palloc 2, Event.mem_write 0 1, Event.mem_write 2 1] ∧
    (build_message sample_env [] sample_strs [1] 1 1).1.getD 1 NUL ≠ NUL ∧
    (scribe_log_writer failing_write_env sample_target [] sample_strs [1] 1 1).trace
      = [Event.reslist_acquire, Event.palloc 2, Event.mem_write 0 1, Event.mem_write 2 1,
         Event.scribe_write ⟨"myhost".toList, 1463⟩ "events".toList "aX".toList,
         Event.reslist_release ⟨"myhost".toList, 1463⟩] := by
  decide

/-- The store of the terminator is made at offset `len + 1` for every record:
it is the last write of `build_message`. -/
lemma build_message_last_write (env : Env) (tr : List Event) (strs : List (List Char))
    (strl : List Nat) (nelts len : Nat) :
    (build_message env tr strs strl nelts len).2.getLast? = some (Event.mem_write (len + 1) 1) := by
  simp [build_message]

/-! ## Configuration directives -/

/-- C10: `make_log_scribe_config` sets `logLocally` to 1, and the handler of
`ScribeLogLocally` called with "Off" leaves it at 1, because the code
compares the result of `strcmp` with 1 and `strcmp` of equal strings is 0:
a target name that is not a remote one is still accepted afterwards.  An
argument such as "Og", for which `strcmp` is 1, sets `logLocally` to 0. -/
theorem logscribe_loglocally_off_not_disabled :
    make_log_scribe_config.logLocally = 1 ∧
    strcmp "Off".toList "Off".toList = 0 ∧
    (logscribe_loglocally make_log_scribe_config (some "Off".toList)).logLocally = 1 ∧
    (scribe_log_writer_init sample_env
        (logscribe_loglocally make_log_scribe_config (some "Off".toList)) initial_state
        "logs/access_log".toList).1 ≠ none ∧
    (logscribe_loglocally make_log_scribe_config (some "Og".toList)).logLocally = 0 := by
  decide
/-! ## Strings and buffers -/

lemma NUL_ne_colon : ':' ≠ NUL := by decide
lemma NUL_ne_at : '@' ≠ NUL := by decide

lemma strrchr_from_none (c : Char) (s : List Char) (i : Nat) (h : c ∉ s) :
    strrchr_from c s i = none := by
  induction s generalizing i with
  | nil => rfl
  | cons x xs ih =>
    have hx : x ≠ c := fun e => h (by simp [e])
    have hxs : c ∉ xs := fun e => h (by simp [e])
    simp [strrchr_from, ih _ hxs, hx]

lemma strrchr_from_stop (c : Char) (rest : List Char) (i : Nat) :
    strrchr_from c (NUL :: rest) i = none := by
  simp [strrchr_from]

lemma strrchr_from_none_terminated (c : Char) (s rest : List Char) (i : Nat) (h : c ∉ s) :
    strrchr_from c (s ++ NUL :: rest) i = none := by
  induction s generalizing i with
  | nil => exact strrchr_from_stop c rest i
  | cons x xs ih =>
    have hx : x ≠ c := fun e => h (by simp [e])
    have hxs : c ∉ xs := fun e => h (by simp [e])
    simp [strrchr_from, ih _ hxs, hx]

lemma strrchr_from_last (c : Char) (hc : c ≠ NUL) (pre suf rest : List Char) (i : Nat)
    (h1 : NUL ∉ pre) (h2 : c ∉ suf) :
    strrchr_from c (pre ++ c :: (suf ++ NUL :: rest)) i = some (i + pre.length) := by
  induction pre generalizing i with
  | nil => simp [strrchr_from, hc, strrchr_from_none_terminated c suf rest _ h2]
  | cons x xs ih =>
    have hx : x ≠ NUL := fun e => h1 (by simp [e])
    have hxs : NUL ∉ xs := fun e => h1 (by simp [e])
    simp [strrchr_from, hx, ih (i + 1) hxs]
    omega

lemma ap_strrchr_last (c : Char) (hc : c ≠ NUL) (pre suf rest : List Char)
    (h1 : NUL ∉ pre) (h2 : c ∉ suf) :
    ap_strrchr (pre ++ c :: (suf ++ NUL :: rest)) c = some pre.length := by
  simp [ap_strrchr, strrchr_from_last c hc pre suf rest 0 h1 h2]

lemma ap_strrchr_none (c : Char) (s rest : List Char) (h : c ∉ s) :
    ap_strrchr (s ++ NUL :: rest) c = none :=
  strrchr_from_none_terminated c s rest 0 h

lemma store_at_length (pre tl : List Char) (c x : Char) :
    store (pre ++ c :: tl) pre.length x = pre ++ x :: tl := by
  simp [store]

lemma cstr_after (pre suf rest : List Char) (x : Char) (h : NUL ∉ suf) :
    cstr (pre ++ x :: (suf ++ NUL :: rest)) (pre.length + 1) = suf := by
  have e : (pre ++ x :: (suf ++ NUL :: rest)) = (pre ++ [x]) ++ (suf ++ NUL :: rest) := by simp
  have hl : pre.length + 1 = (pre ++ [x]).length := by simp
  rw [cstr, e, hl, List.drop_left]
  rw [List.takeWhile_append_of_pos]
  · simp
  · intro a ha
    have : a ≠ NUL := fun e2 => h (e2 ▸ ha)
    simpa using this


/-! ## Decimal numerals -/

lemma digitChar_isdigit (d : Nat) (h : d < 10) :
    isdigit (Nat.digitChar d) = true ∧ (Nat.digitChar d).toNat - 48 = d := by
  interval_cases d <;> decide

lemma isdigit_not_special (c : Char) (h : isdigit c = true) :
    c ≠ NUL ∧ c ≠ ':' ∧ c ≠ '@' ∧ c ≠ '+' ∧ c ≠ '-' ∧ isspace c = false := by
  refine ⟨?_, ?_, ?_, ?_, ?_, ?_⟩
  · rintro rfl
    exact absurd h (by decide)
  · rintro rfl
    exact absurd h (by decide)
  · rintro rfl
    exact absurd h (by decide)
  · rintro rfl
    exact absurd h (by decide)
  · rintro rfl
    exact absurd h (by decide)
  · simp only [isdigit, Bool.and_eq_true, decide_eq_true_eq] at h
    simp only [isspace, Bool.or_eq_false_iff, decide_eq_false_iff_not, Bool.and_eq_false_imp,
      decide_eq_true_eq]
    omega

lemma digitsVal_snoc (xs : List Char) (c : Char) (acc : Nat)
    (hx : ∀ x ∈ xs, isdigit x = true) (hc : isdigit c = true) :
    digitsVal (xs ++ [c]) acc = digitsVal xs acc * 10 + (c.toNat - 48) := by
  induction xs generalizing acc with
  | nil => simp [digitsVal, hc]
  | cons x t ih =>
    have h1 : isdigit x = true := hx x (by simp)
    have h2 : ∀ y ∈ t, isdigit y = true := fun y hy => hx y (by simp [hy])
    simp [digitsVal, h1, ih _ h2]

/-- The digits that `Nat.toDigitsCore` puts before its accumulator do not
depend on the fuel, once it exceeds the number. -/
lemma toDigitsCore_eq (n : Nat) : ∀ (fuel : Nat) (ds : List Char), n < fuel →
    Nat.toDigitsCore 10 fuel n ds = Nat.toDigits 10 n ++ ds := by
  induction n using Nat.strong_induction_on with
  | _ n ih =>
    intro fuel ds hlt
    obtain ⟨f, rfl⟩ : ∃ f, fuel = f + 1 := ⟨fuel - 1, by omega⟩
    by_cases h0 : n / 10 = 0
    · simp [Nat.toDigits, Nat.toDigitsCore, h0]
    · have hlt2 : n / 10 < n := by omega
      have e1 := ih (n / 10) hlt2 f (Nat.digitChar (n % 10) :: ds) (by omega)
      have e2 := ih (n / 10) hlt2 n [Nat.digitChar (n % 10)] hlt2
      simp only [Nat.toDigits, Nat.toDigitsCore, h0, if_false] at e1 e2 ⊢
      rw [e1, e2]
      simp

lemma toDigits_step (n : Nat) (h : n / 10 ≠ 0) :
    Nat.toDigits 10 n = Nat.toDigits 10 (n / 10) ++ [Nat.digitChar (n % 10)] := by
  have hlt2 : n / 10 < n := by omega
  have e2 := toDigitsCore_eq (n / 10) n [Nat.digitChar (n % 10)] hlt2
  rw [← e2]
  simp [Nat.toDigits, Nat.toDigitsCore, h]

lemma toDigits_small (n : Nat) (h : n / 10 = 0) :
    Nat.toDigits 10 n = [Nat.digitChar (n % 10)] := by
  simp [Nat.toDigits, Nat.toDigitsCore, h]

/-- The decimal numeral of `n` is made of digits and reads back as `n`. -/
lemma toDigits_spec (n : Nat) :
    (∀ c ∈ Nat.toDigits 10 n, isdigit c = true) ∧ digitsVal (Nat.toDigits 10 n) 0 = n
      ∧ Nat.toDigits 10 n ≠ [] := by
  induction n using Nat.strong_induction_on with
  | _ n ih =>
    have hd := digitChar_isdigit (n % 10) (Nat.mod_lt _ (by decide))
    by_cases h0 : n / 10 = 0
    · rw [toDigits_small n h0]
      refine ⟨by simpa using hd.1, ?_, by simp⟩
      simp only [digitsVal, hd.1, if_true, hd.2]
      omega
    · have hlt2 : n / 10 < n := by omega
      obtain ⟨i1, i2, _⟩ := ih (n / 10) hlt2
      rw [toDigits_step n h0]
      refine ⟨?_, ?_, by simp⟩
      · intro c hc
        rcases List.mem_append.1 hc with hc | hc
        · exact i1 c hc
        · simp only [List.mem_singleton] at hc
          rw [hc]
          exact hd.1
      · rw [digitsVal_snoc _ _ _ i1 hd.1, i2, hd.2]
        omega

lemma apr_atoi64_toDigits (n : Nat) (h : n < 2 ^ 63) :
    apr_atoi64 (Nat.toDigits 10 n) = n := by
  obtain ⟨i1, i2, i3⟩ := toDigits_spec n
  obtain ⟨c, t, e⟩ : ∃ c t, Nat.toDigits 10 n = c :: t := by
    cases hd : Nat.toDigits 10 n with
    | nil => exact absurd hd i3
    | cons c t => exact ⟨c, t, rfl⟩
  have hc : isdigit c = true := i1 c (by simp [e])
  obtain ⟨_, _, _, hp, hm, hs⟩ := isdigit_not_special c hc
  rw [e] at i2
  rw [e]
  unfold apr_atoi64
  rw [List.dropWhile_cons_of_neg (by simp [hs])]
  split
  · rename_i heq
    simp only [List.cons.injEq] at heq
    exact absurd heq.1 hm
  · rename_i heq
    simp only [List.cons.injEq] at heq
    exact absurd heq.1 hp
  · rw [i2]
    have : (n : Int) < 2 ^ 63 := by exact_mod_cast h
    omega

lemma toInt32_small (x : Int) (h0 : 0 ≤ x) (h1 : x < 2 ^ 31) : toInt32 x = x := by
  unfold toInt32
  norm_num at h1 ⊢
  omega

lemma apr_atoi64_nil : apr_atoi64 [] = 0 := by decide

lemma apr_atoi64_no_leading_number (Q : List Char) (h : no_leading_number Q = true) :
    apr_atoi64 Q = 0 := by
  cases Q with
  | nil => exact apr_atoi64_nil
  | cons c t =>
    simp only [no_leading_number, Bool.not_eq_true', Bool.or_eq_false_iff,
      decide_eq_false_iff_not] at h
    obtain ⟨⟨⟨hs, hd⟩, hp⟩, hm⟩ := h
    unfold apr_atoi64
    rw [List.dropWhile_cons_of_neg (by simp [hs])]
    split
    · rename_i heq
      simp only [List.cons.injEq] at heq
      exact absurd heq.1 hm
    · rename_i heq
      simp only [List.cons.injEq] at heq
      exact absurd heq.1 hp
    · simp [digitsVal, hd]


/-! ## The parser -/

/-- The three steps of `parse_uri` on a buffer whose separators are known. -/
lemma parse_uri_steps (l : scribe_log) (uri uri1 uri2 uri3 : List Char) (i j k : Nat)
    (h1 : ap_strrchr uri ':' = some i) (hi : i ≠ 6) (s1 : store uri i NUL = uri1)
    (h2 : ap_strrchr uri1 '@' = some j) (s2 : store uri1 j NUL = uri2)
    (h3 : ap_strrchr uri2 ':' = some k) (s3 : store uri2 k NUL = uri3) :
    parse_uri l uri = { l with
      port := toInt32 (apr_atoi64 (cstr uri (i + 1)))
      host := cstr uri3 (j + 1)
      category := cstr uri3 (k + 1)
      localonly := 0 } := by
  simp only [parse_uri, h1, hi, ne_eq, not_false_eq_true, if_true, s1, h2, s2, h3, s3]

/-- The parse of `S:C@H:Q`, for a scheme `S` of six characters. -/
lemma parse_uri_full (l : scribe_log) (S C H Q : List Char)
    (hS : S.length = 6) (hS0 : NUL ∉ S)
    (hC0 : NUL ∉ C) (hC1 : ':' ∉ C)
    (hH0 : NUL ∉ H) (hH2 : '@' ∉ H)
    (hQ0 : NUL ∉ Q) (hQ1 : ':' ∉ Q) :
    parse_uri l (apr_pstrdup (S ++ ':' :: (C ++ '@' :: (H ++ ':' :: Q)))) = { l with
      port := toInt32 (apr_atoi64 Q)
      host := H
      category := C
      localonly := 0 } := by
  have n1 : NUL ∉ S ++ ':' :: (C ++ '@' :: H) := by
    simp [hS0, hC0, hH0, NUL_ne_colon.symm, NUL_ne_at.symm]
  have n2 : NUL ∉ S ++ ':' :: C := by
    simp [hS0, hC0, NUL_ne_colon.symm]
  have h1 : ap_strrchr (apr_pstrdup (S ++ ':' :: (C ++ '@' :: (H ++ ':' :: Q)))) ':'
      = some (S ++ ':' :: (C ++ '@' :: H)).length := by
    rw [show apr_pstrdup (S ++ ':' :: (C ++ '@' :: (H ++ ':' :: Q)))
      = (S ++ ':' :: (C ++ '@' :: H)) ++ ':' :: (Q ++ NUL :: []) by simp [apr_pstrdup]]
    exact ap_strrchr_last ':' NUL_ne_colon _ Q [] n1 hQ1
  have s1 : store (apr_pstrdup (S ++ ':' :: (C ++ '@' :: (H ++ ':' :: Q))))
      (S ++ ':' :: (C ++ '@' :: H)).length NUL
      = (S ++ ':' :: C) ++ '@' :: (H ++ NUL :: (Q ++ NUL :: [])) := by
    rw [show apr_pstrdup (S ++ ':' :: (C ++ '@' :: (H ++ ':' :: Q)))
      = (S ++ ':' :: (C ++ '@' :: H)) ++ ':' :: (Q ++ NUL :: []) by simp [apr_pstrdup],
      store_at_length]
    simp
  have c1 : cstr (apr_pstrdup (S ++ ':' :: (C ++ '@' :: (H ++ ':' :: Q))))
      ((S ++ ':' :: (C ++ '@' :: H)).length + 1) = Q := by
    rw [show apr_pstrdup (S ++ ':' :: (C ++ '@' :: (H ++ ':' :: Q)))
      = (S ++ ':' :: (C ++ '@' :: H)) ++ ':' :: (Q ++ NUL :: []) by simp [apr_pstrdup]]
    exact cstr_after _ Q [] ':' hQ0
  have h2 : ap_strrchr ((S ++ ':' :: C) ++ '@' :: (H ++ NUL :: (Q ++ NUL :: []))) '@'
      = some (S ++ ':' :: C).length :=
    ap_strrchr_last '@' NUL_ne_at _ H _ n2 hH2
  have s2 : store ((S ++ ':' :: C) ++ '@' :: (H ++ NUL :: (Q ++ NUL :: [])))
      (S ++ ':' :: C).length NUL
      = S ++ ':' :: (C ++ NUL :: (H ++ NUL :: (Q ++ NUL :: []))) := by
    rw [store_at_length]
    simp
  have h3 : ap_strrchr (S ++ ':' :: (C ++ NUL :: (H ++ NUL :: (Q ++ NUL :: [])))) ':'
      = some S.length :=
    ap_strrchr_last ':' NUL_ne_colon S C _ hS0 hC1
  have s3 : store (S ++ ':' :: (C ++ NUL :: (H ++ NUL :: (Q ++ NUL :: [])))) S.length NUL
      = S ++ NUL :: (C ++ NUL :: (H ++ NUL :: (Q ++ NUL :: []))) :=
    store_at_length _ _ _ _
  have c3 : cstr (S ++ NUL :: (C ++ NUL :: (H ++ NUL :: (Q ++ NUL :: [])))) (S.length + 1)
      = C := cstr_after S C _ NUL hC0
  have c2 : cstr (S ++ NUL :: (C ++ NUL :: (H ++ NUL :: (Q ++ NUL :: []))))
      ((S ++ ':' :: C).length + 1) = H := by
    rw [show S ++ NUL :: (C ++ NUL :: (H ++ NUL :: (Q ++ NUL :: [])))
        = (S ++ NUL :: C) ++ NUL :: (H ++ NUL :: (Q ++ NUL :: [])) by simp,
      show (S ++ ':' :: C).length = (S ++ NUL :: C).length by simp]
    exact cstr_after _ H _ NUL hH0
  rw [parse_uri_steps l _ _ _ _ _ _ _ h1 (by simp [hS]) s1 h2 s2 h3 s3, c1, c2, c3]

/-- The parse of `S:C@H`, without port. -/
lemma parse_uri_noport (l : scribe_log) (S C H : List Char)
    (hS : S.length = 6) (hS0 : NUL ∉ S)
    (hC0 : NUL ∉ C) (hC1 : ':' ∉ C)
    (hH0 : NUL ∉ H) (hH1 : ':' ∉ H) (hH2 : '@' ∉ H) :
    parse_uri l (apr_pstrdup (S ++ ':' :: (C ++ '@' :: H))) = { l with
      port := l.port
      host := H
      category := C
      localonly := 0 } := by
  have n2 : NUL ∉ S ++ ':' :: C := by
    simp [hS0, hC0, NUL_ne_colon.symm]
  have h1 : ap_strrchr (apr_pstrdup (S ++ ':' :: (C ++ '@' :: H))) ':' = some 6 := by
    rw [show apr_pstrdup (S ++ ':' :: (C ++ '@' :: H))
      = S ++ ':' :: ((C ++ '@' :: H) ++ NUL :: []) by simp [apr_pstrdup], ← hS]
    exact ap_strrchr_last ':' NUL_ne_colon S _ [] hS0 (by simp [hC1, hH1])
  have h2 : ap_strrchr (apr_pstrdup (S ++ ':' :: (C ++ '@' :: H))) '@'
      = some (S ++ ':' :: C).length := by
    rw [show apr_pstrdup (S ++ ':' :: (C ++ '@' :: H))
      = (S ++ ':' :: C) ++ '@' :: (H ++ NUL :: []) by simp [apr_pstrdup]]
    exact ap_strrchr_last '@' NUL_ne_at _ H [] n2 hH2
  have s2 : store (apr_pstrdup (S ++ ':' :: (C ++ '@' :: H))) (S ++ ':' :: C).length NUL
      = S ++ ':' :: (C ++ NUL :: (H ++ NUL :: [])) := by
    rw [show apr_pstrdup (S ++ ':' :: (C ++ '@' :: H))
      = (S ++ ':' :: C) ++ '@' :: (H ++ NUL :: []) by simp [apr_pstrdup], store_at_length]
    simp
  have h3 : ap_strrchr (S ++ ':' :: (C ++ NUL :: (H ++ NUL :: []))) ':' = some S.length :=
    ap_strrchr_last ':' NUL_ne_colon S C _ hS0 hC1
  have s3 : store (S ++ ':' :: (C ++ NUL :: (H ++ NUL :: []))) S.length NUL
      = S ++ NUL :: (C ++ NUL :: (H ++ NUL :: [])) :=
    store_at_length _ _ _ _
  have c3 : cstr (S ++ NUL :: (C ++ NUL :: (H ++ NUL :: []))) (S.length + 1) = C :=
    cstr_after S C _ NUL hC0
  have c2 : cstr (S ++ NUL :: (C ++ NUL :: (H ++ NUL :: [])))
      ((S ++ ':' :: C).length + 1) = H := by
    rw [show S ++ NUL :: (C ++ NUL :: (H ++ NUL :: []))
        = (S ++ NUL :: C) ++ NUL :: (H ++ NUL :: []) by simp,
      show (S ++ ':' :: C).length = (S ++ NUL :: C).length by simp]
    exact cstr_after _ H _ NUL hH0
  simp only [parse_uri, h1, ne_eq, not_true_eq_false, if_false, h2, s2, h3, s3, c2, c3]


/-- The parse of `S:C:Q`, a name without the `@host` part. -/
lemma parse_uri_nohost (l : scribe_log) (S C Q : List Char)
    (hS : S.length = 6) (hS0 : NUL ∉ S) (hS2 : '@' ∉ S)
    (hC0 : NUL ∉ C) (hC1 : ':' ∉ C) (hC2 : '@' ∉ C)
    (hQ0 : NUL ∉ Q) (hQ1 : ':' ∉ Q) :
    parse_uri l (apr_pstrdup (S ++ ':' :: (C ++ ':' :: Q))) = { l with
      port := toInt32 (apr_atoi64 Q)
      host := l.host
      category := C
      localonly := 0 } := by
  have n2 : NUL ∉ S ++ ':' :: C := by
    simp [hS0, hC0, NUL_ne_colon.symm]
  have h1 : ap_strrchr (apr_pstrdup (S ++ ':' :: (C ++ ':' :: Q))) ':'
      = some (S ++ ':' :: C).length := by
    rw [show apr_pstrdup (S ++ ':' :: (C ++ ':' :: Q))
      = (S ++ ':' :: C) ++ ':' :: (Q ++ NUL :: []) by simp [apr_pstrdup]]
    exact ap_strrchr_last ':' NUL_ne_colon _ Q [] n2 hQ1
  have s1 : store (apr_pstrdup (S ++ ':' :: (C ++ ':' :: Q))) (S ++ ':' :: C).length NUL
      = S ++ ':' :: (C ++ NUL :: (Q ++ NUL :: [])) := by
    rw [show apr_pstrdup (S ++ ':' :: (C ++ ':' :: Q))
      = (S ++ ':' :: C) ++ ':' :: (Q ++ NUL :: []) by simp [apr_pstrdup], store_at_length]
    simp
  have c1 : cstr (apr_pstrdup (S ++ ':' :: (C ++ ':' :: Q))) ((S ++ ':' :: C).length + 1)
      = Q := by
    rw [show apr_pstrdup (S ++ ':' :: (C ++ ':' :: Q))
      = (S ++ ':' :: C) ++ ':' :: (Q ++ NUL :: []) by simp [apr_pstrdup]]
    exact cstr_after _ Q [] ':' hQ0
  have h2 : ap_strrchr (S ++ ':' :: (C ++ NUL :: (Q ++ NUL :: []))) '@' = none := by
    rw [show S ++ ':' :: (C ++ NUL :: (Q ++ NUL :: []))
      = (S ++ ':' :: C) ++ NUL :: (Q ++ NUL :: []) by simp]
    exact ap_strrchr_none '@' _ _ (by simp [hS2, hC2])
  have h3 : ap_strrchr (S ++ ':' :: (C ++ NUL :: (Q ++ NUL :: []))) ':' = some S.length :=
    ap_strrchr_last ':' NUL_ne_colon S C _ hS0 hC1
  have s3 : store (S ++ ':' :: (C ++ NUL :: (Q ++ NUL :: []))) S.length NUL
      = S ++ NUL :: (C ++ NUL :: (Q ++ NUL :: [])) :=
    store_at_length _ _ _ _
  have c3 : cstr (S ++ NUL :: (C ++ NUL :: (Q ++ NUL :: []))) (S.length + 1) = C :=
    cstr_after S C _ NUL hC0
  have hi : (S ++ ':' :: C).length ≠ 6 := by simp [hS]
  simp only [parse_uri, h1, hi, ne_eq, not_false_eq_true, if_true, s1, h2, h3, s3, c1, c3]

lemma parse_uri_localonly (l : scribe_log) (uri : List Char) :
    (parse_uri l uri).localonly = 0 := rfl

lemma parse_uri_fallingback (l : scribe_log) (uri : List Char) :
    (parse_uri l uri).fallingback = l.fallingback := rfl

lemma not_mem_store (c : Char) (hc : c ≠ NUL) (buf : List Char) (i : Nat) (h : c ∉ buf) :
    c ∉ store buf i NUL := by
  intro hm
  rcases List.mem_or_eq_of_mem_set hm with e | e
  · exact h e
  · exact hc e

lemma ap_strrchr_absent (c : Char) (buf : List Char) (h : c ∉ buf) :
    ap_strrchr buf c = none :=
  strrchr_from_none c buf 0 h

/-- Without `@` in the buffer the host keeps its default. -/
lemma parse_uri_no_at (l : scribe_log) (uri : List Char) (h : '@' ∉ uri) :
    (parse_uri l uri).host = l.host := by
  have a1 : ∀ i, ap_strrchr (store uri i NUL) '@' = none := fun i =>
    ap_strrchr_absent _ _ (not_mem_store _ NUL_ne_at _ _ h)
  have a0 : ap_strrchr uri '@' = none := ap_strrchr_absent _ _ h
  cases h1 : ap_strrchr uri ':' with
  | none => simp only [parse_uri, h1, a0]
  | some i =>
    by_cases hi : i = 6
    · simp only [parse_uri, h1, hi, ne_eq, not_true_eq_false, if_false, a0]
    · simp only [parse_uri, h1, hi, ne_eq, not_false_eq_true, if_true, a1]

/-- Without `:` in the buffer the port is 1463 and the category keeps its
default. -/
lemma parse_uri_no_colon (l : scribe_log) (uri : List Char) (h : ':' ∉ uri) :
    (parse_uri l uri).port = 1463 ∧ (parse_uri l uri).category = l.category := by
  have a1 : ∀ i, ap_strrchr (store uri i NUL) ':' = none := fun i =>
    ap_strrchr_absent _ _ (not_mem_store _ NUL_ne_colon _ _ h)
  have a0 : ap_strrchr uri ':' = none := ap_strrchr_absent _ _ h
  cases h2 : ap_strrchr uri '@' with
  | none => simp only [parse_uri, a0, h2, and_self]
  | some j => simp only [parse_uri, a0, h2, a1, and_self]


/-! ## The registry -/

lemma hash_get_set_ne (h : Hash) (n name : List Char) (l : scribe_log) (hne : name ≠ n) :
    apr_hash_get (apr_hash_set h n l) name = apr_hash_get h name := by
  induction h with
  | nil => simp [apr_hash_set, apr_hash_get, Ne.symm hne]
  | cons e t ih =>
    obtain ⟨k, v⟩ := e
    by_cases hk : k = n
    · have hkn : ¬ k = name := fun e2 => hne (e2.symm.trans hk)
      simp [apr_hash_set, apr_hash_get, hk, Ne.symm hne]
    · by_cases hkn : k = name
      · subst hkn
        simp [apr_hash_set, apr_hash_get, hk]
      · simp [apr_hash_set, apr_hash_get, hk, hkn, ih]

lemma hash_get_set_self (h : Hash) (name : List Char) (l : scribe_log) :
    apr_hash_get (apr_hash_set h name l) name = some l := by
  induction h with
  | nil => simp [apr_hash_set, apr_hash_get]
  | cons e t ih =>
    obtain ⟨k, v⟩ := e
    by_cases hk : k = name
    · simp [apr_hash_set, apr_hash_get, hk]
    · simp [apr_hash_set, apr_hash_get, hk, ih]

lemma hash_get_mutate_ne (h : Hash) (n name : List Char) (l : scribe_log) (hne : name ≠ n) :
    apr_hash_get (mutate h n l) name = apr_hash_get h name := by
  induction h with
  | nil => simp [mutate, apr_hash_get]
  | cons e t ih =>
    obtain ⟨k, v⟩ := e
    by_cases hk : k = n
    · simp [mutate, apr_hash_get, hk, Ne.symm hne]
    · by_cases hkn : k = name
      · subst hkn
        simp [mutate, apr_hash_get, hk]
      · simp [mutate, apr_hash_get, hk, hkn, ih]

lemma hash_get_mutate_self (h : Hash) (name : List Char) (l l0 : scribe_log)
    (hg : apr_hash_get h name = some l0) :
    apr_hash_get (mutate h name l) name = some l := by
  induction h with
  | nil => simp [apr_hash_get] at hg
  | cons e t ih =>
    obtain ⟨k, v⟩ := e
    by_cases hk : k = name
    · simp [mutate, apr_hash_get, hk]
    · simp only [apr_hash_get, hk, if_false] at hg
      simp [mutate, apr_hash_get, hk, ih hg]

/-- Registration leaves the registry as it is or adds the entry of a name
that had none. -/
lemma init_hash (env : Env) (conf : scribe_log_config) (st : State) (n : List Char) :
    (scribe_log_writer_init env conf st n).2.scribe_hash = st.scribe_hash ∨
    (apr_hash_get st.scribe_hash n = none ∧
      ∃ l, (scribe_log_writer_init env conf st n).2.scribe_hash
        = apr_hash_set st.scribe_hash n l) := by
  cases hg : apr_hash_get st.scribe_hash n with
  | some l =>
    left
    simp only [scribe_log_writer_init, hg]
    split_ifs <;> rfl
  | none =>
    simp only [scribe_log_writer_init, hg]
    split_ifs <;> first | exact Or.inl rfl | exact Or.inr ⟨trivial, _, rfl⟩

lemma acquire_fallingback (env : Env) (l : scribe_log) (tr : List Event) :
    (apr_reslist_acquire env l tr).l.fallingback = l.fallingback
      ∨ (apr_reslist_acquire env l tr).l.fallingback = 1 := by
  unfold apr_reslist_acquire
  cases env.apr_reslist_acquire tr with
  | idle s => exact Or.inl rfl
  | create => exact open_fallingback _ _ _
  | timeup => exact Or.inl rfl

lemma writer_fallingback (env : Env) (l : scribe_log) (tr : List Event)
    (strs : List (List Char)) (strl : List Nat) (nelts len : Nat) :
    (scribe_log_writer env l tr strs strl nelts len).l.fallingback = l.fallingback
      ∨ (scribe_log_writer env l tr strs strl nelts len).l.fallingback = 1 := by
  unfold scribe_log_writer
  split_ifs with h1
  · exact Or.inl rfl
  · simp only
    split
    · exact acquire_fallingback _ _ _
    · split_ifs
      · exact acquire_fallingback _ _ _
      · exact acquire_fallingback _ _ _

/-- The invariant of C5 for one name: the target exists and has fallen back. -/
lemma step_fallen_back (env : Env) (st : State) (op : Op) (name : List Char)
    (h : ∃ l, apr_hash_get st.scribe_hash name = some l ∧ l.fallingback = 1) :
    ∃ l, apr_hash_get (step env st op).scribe_hash name = some l ∧ l.fallingback = 1 := by
  obtain ⟨l, hg, hf⟩ := h
  cases op with
  | init conf n =>
    show ∃ l, apr_hash_get (scribe_log_writer_init env conf st n).2.scribe_hash name = some l ∧ _
    rcases init_hash env conf st n with e | ⟨hn, l2, e⟩
    · rw [e]
      exact ⟨l, hg, hf⟩
    · rw [e]
      have hne : name ≠ n := by
        rintro rfl
        rw [hn] at hg
        cases hg
      rw [hash_get_set_ne _ _ _ _ hne]
      exact ⟨l, hg, hf⟩
  | open_conn n =>
    by_cases hne : name = n
    · subst hne
      simp only [step, hg]
      refine ⟨_, hash_get_mutate_self _ _ _ _ hg, ?_⟩
      rcases open_fallingback env l st.trace with e | e
      · rw [e, hf]
      · exact e
    · cases hn : apr_hash_get st.scribe_hash n with
      | none =>
        simp only [step, hn]
        exact ⟨l, hg, hf⟩
      | some l2 =>
        simp only [step, hn]
        rw [hash_get_mutate_ne _ _ _ _ hne]
        exact ⟨l, hg, hf⟩
  | write n strs strl nelts len =>
    by_cases hne : name = n
    · subst hne
      simp only [step, hg]
      refine ⟨_, hash_get_mutate_self _ _ _ _ hg, ?_⟩
      rcases writer_fallingback env l st.trace strs strl nelts len with e | e
      · rw [e, hf]
      · exact e
    · cases hn : apr_hash_get st.scribe_hash n with
      | none =>
        simp only [step, hn]
        exact ⟨l, hg, hf⟩
      | some l2 =>
        simp only [step, hn]
        rw [hash_get_mutate_ne _ _ _ _ hne]
        exact ⟨l, hg, hf⟩

lemma run_fallen_back (env : Env) (ops : List Op) (st : State) (name : List Char)
    (h : ∃ l, apr_hash_get st.scribe_hash name = some l ∧ l.fallingback = 1) :
    ∃ l, apr_hash_get (run env st ops).scribe_hash name = some l ∧ l.fallingback = 1 := by
  induction ops generalizing st with
  | nil => exact h
  | cons op t ih => exact ih (step env st op) (step_fallen_back env st op name h)


/-! ## Registration of a name -/

/-- First registration of a name that contains "scribe": the descriptor is
the parse of the name over the defaults. -/
lemma init_remote (env : Env) (conf : scribe_log_config) (st : State) (name : List Char)
    (hremote : strstr name "scribe".toList ≠ none)
    (hfresh : apr_hash_get st.scribe_hash name = none)
    (hcreate : env.apr_reslist_create st.trace = APR_SUCCESS) :
    (scribe_log_writer_init env conf st name).1
      = some (parse_uri
          { env.palloc_log st.trace with
            uri := name
            host := "defaulthost".toList
            port := 1463
            category := "default".toList
            connectTimeout := conf.timeoutInterval
            fallbackURI := conf.fallbackURI
            retryTimeout := conf.retryInterval
            fallingback := 0 }
          (apr_pstrdup name)) := by
  unfold scribe_log_writer_init
  simp only [hremote, hfresh, hcreate, if_false, if_true, ne_eq, not_true_eq_false,
    not_false_eq_true, false_and, one_ne_zero]

/-- First registration of a name that does not contain "scribe", with local
logging enabled. -/
lemma init_local (env : Env) (conf : scribe_log_config) (st : State) (name : List Char)
    (hname : strstr name "scribe".toList = none)
    (hlocal : conf.logLocally ≠ 0)
    (hfresh : apr_hash_get st.scribe_hash name = none)
    (hcreate : env.apr_reslist_create st.trace = APR_SUCCESS) :
    scribe_log_writer_init env conf st name
      = (some
          { env.palloc_log st.trace with
            uri := name
            host := "defaulthost".toList
            port := 1463
            category := "default".toList
            connectTimeout := conf.timeoutInterval
            fallbackURI := conf.fallbackURI
            retryTimeout := conf.retryInterval
            fallingback := 0
            localonly := 1
            normal_handle := env.normal_log_writer_init (st.trace ++ [Event.reslist_create])
              name },
         ⟨apr_hash_set st.scribe_hash name
          { env.palloc_log st.trace with
            uri := name
            host := "defaulthost".toList
            port := 1463
            category := "default".toList
            connectTimeout := conf.timeoutInterval
            fallbackURI := conf.fallbackURI
            retryTimeout := conf.retryInterval
            fallingback := 0
            localonly := 1
            normal_handle := env.normal_log_writer_init (st.trace ++ [Event.reslist_create])
              name },
          st.trace ++ [Event.reslist_create] ++ [Event.normal_log_writer_init name]⟩) := by
  unfold scribe_log_writer_init
  simp only [hname, hlocal, hfresh, hcreate, if_false, if_true, ne_eq, not_true_eq_false,
    not_false_eq_true, and_false, true_and]

lemma strstr_scribe_prefixed (t : List Char) :
    strstr ("scribe:".toList ++ t) "scribe".toList ≠ none := by
  simp [strstr, List.isPrefixOf]

/-- C1: for a category C and a host H without ':' or '@' and a port P in
1..65535, the first registration of "scribe:C@H:P" (P in decimal) yields a
remote descriptor with host H, port P and category C, and that of
"scribe:C@H" yields host H, category C and the port 1463. -/
theorem scribe_log_writer_init_parses_remote_name (env : Env) (conf : scribe_log_config)
    (st : State) (C H : List Char) (P : Nat)
    (hC0 : NUL ∉ C) (hC1 : ':' ∉ C) (_hC2 : '@' ∉ C)
    (hH0 : NUL ∉ H) (hH1 : ':' ∉ H) (hH2 : '@' ∉ H)
    (hP1 : 1 ≤ P) (hP2 : P ≤ 65535)
    (hcreate : env.apr_reslist_create st.trace = APR_SUCCESS)
    (hfresh1 : apr_hash_get st.scribe_hash
      ("scribe:".toList ++ C ++ '@' :: H ++ ':' :: Nat.toDigits 10 P) = none)
    (hfresh2 : apr_hash_get st.scribe_hash ("scribe:".toList ++ C ++ '@' :: H) = none) :
    (∃ l, (scribe_log_writer_init env conf st
            ("scribe:".toList ++ C ++ '@' :: H ++ ':' :: Nat.toDigits 10 P)).1 = some l ∧
          l.localonly = 0 ∧ l.host = H ∧ l.port = P ∧ l.category = C) ∧
    (∃ l, (scribe_log_writer_init env conf st ("scribe:".toList ++ C ++ '@' :: H)).1 = some l ∧
          l.localonly = 0 ∧ l.host = H ∧ l.port = 1463 ∧ l.category = C) := by
  have hS0 : NUL ∉ "scribe".toList := by decide
  obtain ⟨d1, _, _⟩ := toDigits_spec P
  have hQ0 : NUL ∉ Nat.toDigits 10 P := fun hm => (isdigit_not_special _ (d1 _ hm)).1 rfl
  have hQ1 : ':' ∉ Nat.toDigits 10 P := fun hm => (isdigit_not_special _ (d1 _ hm)).2.1 rfl
  have e1 : "scribe:".toList ++ C ++ '@' :: H ++ ':' :: Nat.toDigits 10 P
      = "scribe".toList ++ ':' :: (C ++ '@' :: (H ++ ':' :: Nat.toDigits 10 P)) := by
    simp
  have e2 : "scribe:".toList ++ C ++ '@' :: H = "scribe".toList ++ ':' :: (C ++ '@' :: H) := by
    simp
  have hport : toInt32 (apr_atoi64 (Nat.toDigits 10 P)) = (P : Int) := by
    rw [apr_atoi64_toDigits P (by omega)]
    exact toInt32_small _ (by omega) (by norm_num; omega)
  constructor
  · refine ⟨_, init_remote env conf st _ (strstr_scribe_prefixed _) hfresh1 hcreate, ?_⟩
    rw [e1, parse_uri_full _ "scribe".toList C H _ rfl hS0 hC0 hC1 hH0 hH2 hQ0 hQ1]
    exact ⟨rfl, rfl, hport, rfl⟩
  · refine ⟨_, init_remote env conf st _ (strstr_scribe_prefixed _) hfresh2 hcreate, ?_⟩
    rw [e2, parse_uri_noport _ "scribe".toList C H rfl hS0 hC0 hC1 hH0 hH1 hH2]
    exact ⟨rfl, rfl, rfl, rfl⟩

/-- C1, on the names "scribe:mycategory@myhost:9999" and
"scribe:mycategory@myhost". -/
theorem scribe_log_writer_init_parses_remote_name_witness :
    (∃ l, (scribe_log_writer_init sample_env make_log_scribe_config initial_state
            "scribe:mycategory@myhost:9999".toList).1 = some l ∧
          l.localonly = 0 ∧ l.host = "myhost".toList ∧ l.port = 9999 ∧
          l.category = "mycategory".toList) ∧
    (∃ l, (scribe_log_writer_init sample_env make_log_scribe_config initial_state
            "scribe:mycategory@myhost".toList).1 = some l ∧
          l.localonly = 0 ∧ l.host = "myhost".toList ∧ l.port = 1463 ∧
          l.category = "mycategory".toList) :=
  scribe_log_writer_init_parses_remote_name sample_env make_log_scribe_config initial_state
    "mycategory".toList "myhost".toList 9999 (by decide) (by decide) (by decide) (by decide)
    (by decide) (by decide) (by decide) (by decide) rfl rfl rfl


/-- C2, as the code has it: with local logging enabled, the first
registration of a name that does not contain the text "scribe" yields a
descriptor marked local-only whose `normal_handle` is the handle that the
init of the local-logging collaborator returns for that name, after one
call of that init. -/
theorem scribe_log_writer_init_local_only (env : Env) (conf : scribe_log_config)
    (st : State) (name : List Char)
    (hname : strstr name "scribe".toList = none)
    (hlocal : conf.logLocally ≠ 0)
    (hfresh : apr_hash_get st.scribe_hash name = none)
    (hcreate : env.apr_reslist_create st.trace = APR_SUCCESS) :
    ∃ l, (scribe_log_writer_init env conf st name).1 = some l ∧
      l.localonly = 1 ∧
      l.normal_handle = env.normal_log_writer_init (st.trace ++ [Event.reslist_create]) name ∧
      (scribe_log_writer_init env conf st name).2.trace
        = st.trace ++ [Event.reslist_create] ++ [Event.normal_log_writer_init name] ∧
      apr_hash_get (scribe_log_writer_init env conf st name).2.scribe_hash name = some l := by
  rw [init_local env conf st name hname hlocal hfresh hcreate]
  exact ⟨_, rfl, rfl, rfl, rfl, hash_get_set_self _ _ _⟩

/-- C2, on the file path "logs/access_log". -/
theorem scribe_log_writer_init_local_only_witness :
    ∃ l, (scribe_log_writer_init sample_env make_log_scribe_config initial_state
          "logs/access_log".toList).1 = some l ∧
      l.localonly = 1 ∧
      l.normal_handle = sample_env.normal_log_writer_init ([] ++ [Event.reslist_create])
        "logs/access_log".toList ∧
      (scribe_log_writer_init sample_env make_log_scribe_config initial_state
          "logs/access_log".toList).2.trace
        = [] ++ [Event.reslist_create]
            ++ [Event.normal_log_writer_init "logs/access_log".toList] ∧
      apr_hash_get (scribe_log_writer_init sample_env make_log_scribe_config initial_state
          "logs/access_log".toList).2.scribe_hash "logs/access_log".toList = some l :=
  scribe_log_writer_init_local_only sample_env make_log_scribe_config initial_state
    "logs/access_log".toList (by decide) (by decide) rfl rfl

/-- C2 fails as stated: the file path "logs/scribe_access.log" has no ':'
and no '@', so it is not of the form scribe:category@host[:port]; with local
logging enabled its registration yields a descriptor that is not local-only
(`localonly` = 0, default host, port and category), and the init of the
local-logging collaborator is not called. -/
theorem scribe_log_writer_init_path_with_scribe_is_remote :
    make_log_scribe_config.logLocally = 1 ∧
    ':' ∉ "logs/scribe_access.log".toList ∧ '@' ∉ "logs/scribe_access.log".toList ∧
    (scribe_log_writer_init sample_env make_log_scribe_config initial_state
        "logs/scribe_access.log".toList).1
      = some { uri := "logs/scribe_access.log".toList, host := "defaulthost".toList,
               port := 1463, category := "default".toList, connectTimeout := 2000,
               fallbackURI := none, fallingback := 0, retryTimeout := 5000,
               localonly := 0, normal_handle := none } ∧
    (scribe_log_writer_init sample_env make_log_scribe_config initial_state
        "logs/scribe_access.log".toList).2.trace = [Event.reslist_create] := by
  decide

/-- C3, as the code has it: the first registration of a name that contains
"scribe", malformed or not, does not fail and yields a remote descriptor.
If the name has no '@' the host is "defaulthost"; if it has no ':' the port
is 1463 and the category "default".  The name "scribe:C@H:Q" yields the
category C, the host H and the port that `apr_atoi64` reads in Q, each as
it is written, empty or not: an empty C gives the category "", an empty H
the host "", and a Q that is empty or does not start with a number the
port 0.  The name "scribe:C:Q", without the '@host' part, yields the
default host, the category C and the port read in Q. -/
theorem scribe_log_writer_init_malformed (env : Env) (conf : scribe_log_config)
    (st : State) (name : List Char)
    (hremote : strstr name "scribe".toList ≠ none)
    (hfresh : apr_hash_get st.scribe_hash name = none)
    (hcreate : env.apr_reslist_create st.trace = APR_SUCCESS) :
    ∃ l, (scribe_log_writer_init env conf st name).1 = some l ∧ l.localonly = 0 ∧
      ('@' ∉ name → l.host = "defaulthost".toList) ∧
      (':' ∉ name → l.port = 1463 ∧ l.category = "default".toList) ∧
      (∀ C H Q : List Char, NUL ∉ C → ':' ∉ C → NUL ∉ H → '@' ∉ H → NUL ∉ Q → ':' ∉ Q →
        name = "scribe:".toList ++ C ++ '@' :: H ++ ':' :: Q →
        l.category = C ∧ l.host = H ∧ l.port = toInt32 (apr_atoi64 Q) ∧
          (no_leading_number Q = true → l.port = 0)) ∧
      (∀ C Q : List Char, NUL ∉ C → ':' ∉ C → '@' ∉ C → NUL ∉ Q → ':' ∉ Q →
        name = "scribe:".toList ++ C ++ ':' :: Q →
        l.category = C ∧ l.host = "defaulthost".toList ∧ l.port = toInt32 (apr_atoi64 Q)) := by
  have hS0 : NUL ∉ "scribe".toList := by decide
  have hS2 : '@' ∉ "scribe".toList := by decide
  refine ⟨_, init_remote env conf st name hremote hfresh hcreate, rfl, ?_, ?_, ?_, ?_⟩
  · intro h
    rw [parse_uri_no_at _ _ (by simp [apr_pstrdup, h, NUL_ne_at])]
  · intro h
    exact parse_uri_no_colon _ _ (by simp [apr_pstrdup, h, NUL_ne_colon])
  · intro C H Q hC0 hC1 hH0 hH2 hQ0 hQ1 e
    have e1 : name = "scribe".toList ++ ':' :: (C ++ '@' :: (H ++ ':' :: Q)) := by
      rw [e]
      simp
    rw [e1, parse_uri_full _ "scribe".toList C H Q rfl hS0 hC0 hC1 hH0 hH2 hQ0 hQ1]
    refine ⟨rfl, rfl, rfl, ?_⟩
    intro hq
    show toInt32 (apr_atoi64 Q) = 0
    rw [apr_atoi64_no_leading_number Q hq]
    decide
  · intro C Q hC0 hC1 hC2 hQ0 hQ1 e
    have e1 : name = "scribe".toList ++ ':' :: (C ++ ':' :: Q) := by
      rw [e]
      simp
    rw [e1, parse_uri_nohost _ "scribe".toList C Q rfl hS0 hS2 hC0 hC1 hC2 hQ0 hQ1]
    exact ⟨rfl, rfl, rfl⟩

/-- C3, on the name "scribe:@h:abc": the registration succeeds with the
empty category, the host "h" and the port 0. -/
theorem scribe_log_writer_init_malformed_witness :
    ∃ l, (scribe_log_writer_init sample_env make_log_scribe_config initial_state
          "scribe:@h:abc".toList).1 = some l ∧
      l.localonly = 0 ∧ l.category = [] ∧ l.host = "h".toList ∧ l.port = 0 := by
  obtain ⟨l, h1, h2, _, _, h5, _⟩ :=
    scribe_log_writer_init_malformed sample_env make_log_scribe_config initial_state
      "scribe:@h:abc".toList (by decide) rfl rfl
  obtain ⟨a, b, _, d⟩ := h5 [] "h".toList "abc".toList (by decide) (by decide) (by decide)
    (by decide) (by decide) (by decide) (by decide)
  exact ⟨l, h1, h2, a, b, d (by decide)⟩

/-- C3 fails as stated: an empty category yields the category "", not
"default"; an empty host yields the host "", not the default host; an empty
port and a non-numeric port yield the port 0, not 1463. -/
theorem scribe_log_writer_init_empty_fields_not_defaulted :
    ((scribe_log_writer_init sample_env make_log_scribe_config initial_state
        "scribe:@h:80".toList).1.map (fun l => l.category)) = some [] ∧
    ((scribe_log_writer_init sample_env make_log_scribe_config initial_state
        "scribe:c@:80".toList).1.map (fun l => l.host)) = some [] ∧
    ((scribe_log_writer_init sample_env make_log_scribe_config initial_state
        "scribe:c@h:".toList).1.map (fun l => l.port)) = some 0 ∧
    ((scribe_log_writer_init sample_env make_log_scribe_config initial_state
        "scribe:c@h:abc".toList).1.map (fun l => l.port)) = some 0 := by
  decide

/-! ## The fallback flag over the life of the process -/

/-- C5: once the flag `fallingback` of a registered target is 1, it is 1
after every sequence of registrations, connection creations and writes,
whatever the collaborators answer; the target stays registered. -/
theorem fallingback_monotonic (env : Env) (st : State) (ops : List Op) (name : List Char)
    (l : scribe_log) (hg : apr_hash_get st.scribe_hash name = some l)
    (hf : l.fallingback = 1) :
    ∃ l2, apr_hash_get (run env st ops).scribe_hash name = some l2 ∧ l2.fallingback = 1 :=
  run_fallen_back env ops st name ⟨l, hg, hf⟩

/-- C5, on a target that has fallen back, with every open failing. -/
theorem fallingback_monotonic_witness :
    ∃ l2, apr_hash_get (run failing_open_env fallen_state sample_ops).scribe_hash
        "scribe:events@primary:1463".toList = some l2 ∧ l2.fallingback = 1 :=
  fallingback_monotonic failing_open_env fallen_state sample_ops
    "scribe:events@primary:1463".toList
    { sample_target with host := [], port := 0, fallingback := 1 } (by decide) rfl

end ModLogScribe
